import Mathlib

/-!
Verification of the Tailor-Talk calendar agent (Python backend) against its
natural-language specification.  The Python sources are shallowly embedded:

* `backend/calendar_utils.py` — the availability planner `suggest_free_slots`
  (its pure sweep over busy intervals is `free_slots` below; timestamps are
  modelled as `Int` minutes).
* `backend/agent.py` — the regex fallback extractor `fallback_extraction`
  (the three `re` patterns are embedded by a small backtracking matcher with
  Python `re.search` semantics), the three LangGraph nodes
  (`conversational_node`, `check_availability_node`, `booking_node`), the
  graph routing (`build_agent_graph`) and `run_agent`.  The Gemini NLU call
  and the Google-Calendar service are external effects; they are passed in as
  explicit oracle values (`Except String GeminiResult`, `Backend`), and the
  backend calls a run performs are collected in a `Trace`.
* `backend/main.py` — the FastAPI session endpoints over an association-list
  model of the in-memory `sessions` dict.
-/

/-! ### calendar_utils.suggest_free_slots — the availability planner

Timestamps are minutes (Int).  A busy interval is a pair `(start, end)`.
-/

/-- The overlap scan inside the while-loop of `suggest_free_slots`
(calendar_utils.py lines 92-97): return the end of the first busy interval
(in list order) that overlaps the candidate slot `[cur, slotEnd)`, i.e. the
first `(bs, be)` with `cur < be` and `slotEnd > bs`. -/
def findOverlap : List (Int × Int) → Int → Int → Option Int
  | [], _, _ => none
  | iv :: rest, cur, slotEnd =>
    if cur < iv.2 ∧ slotEnd > iv.1 then some iv.2 else findOverlap rest cur slotEnd

/-- The while-loop of `suggest_free_slots` (calendar_utils.py lines 88-101),
with an explicit fuel argument for termination.  One iteration either skips
the cursor to the end of the first overlapping busy interval, or accepts the
cursor as a slot start and advances it by the slot duration; the loop stops
when fewer than `slot_duration` minutes remain before `dayEnd` or when
`maxLeft` (the remaining suggestion budget) is exhausted.  `sweep_fuel_irrel`
below shows the fuel used by `free_slots` is irrelevant (any sufficient fuel
gives the same list), so the fuel is a pure termination device. -/
def sweep : Nat → List (Int × Int) → Int → Int → Int → Nat → List Int
  | 0, _, _, _, _, _ => []
  | Nat.succ fuel, intervals, current, dayEnd, dur, maxLeft =>
    if maxLeft = 0 then []
    else if current + dur ≤ dayEnd then
      match findOverlap intervals current (current + dur) with
      | some bEnd => sweep fuel intervals bEnd dayEnd dur maxLeft
      | none => current :: sweep fuel intervals (current + dur) dayEnd dur (maxLeft - 1)
    else []

/-- One insertion step of a stable sort of busy intervals by `(start, end)`
lexicographic order — the embedding of Python `intervals.sort()`
(calendar_utils.py line 86); tuple comparison in Python is lexicographic. -/
def insertInterval (iv : Int × Int) : List (Int × Int) → List (Int × Int)
  | [] => [iv]
  | j :: rest =>
    if iv.1 < j.1 ∨ (iv.1 = j.1 ∧ iv.2 ≤ j.2) then iv :: j :: rest
    else j :: insertInterval iv rest

/-- `intervals.sort()` of calendar_utils.py line 86: sort busy intervals by
start (then end).  Lexicographic order on `Int × Int` is total, so any
sorting algorithm produces this list. -/
def sortIntervals (l : List (Int × Int)) : List (Int × Int) :=
  l.foldr insertInterval []

/-- The pure availability planner: the sweep of `suggest_free_slots`
(calendar_utils.py lines 68-102) applied to an already-queried list of busy
intervals.  `dayStart`/`dayEnd` are the window bounds in minutes, `dur` the
slot duration in minutes, `maxS` the maximum number of suggestions.  The fuel
`(dayEnd - dayStart).toNat + 1` is sufficient for every positive duration
(`sweep_fuel_irrel`). -/
def free_slots (busy : List (Int × Int)) (dayStart dayEnd dur : Int) (maxS : Nat) : List Int :=
  sweep ((dayEnd - dayStart).toNat + 1) (sortIntervals busy) dayStart dayEnd dur maxS

theorem findOverlap_some {l : List (Int × Int)} {cur slotEnd bEnd : Int}
    (h : findOverlap l cur slotEnd = some bEnd) : cur < bEnd := by
  induction l with
  | nil => simp [findOverlap] at h
  | cons iv rest ih =>
    by_cases hc : cur < iv.2 ∧ slotEnd > iv.1
    · simp [findOverlap, hc] at h
      omega
    · simp [findOverlap, hc] at h
      exact ih h

theorem findOverlap_none {l : List (Int × Int)} {cur slotEnd : Int}
    (h : findOverlap l cur slotEnd = none) :
    ∀ iv ∈ l, ¬(cur < iv.2 ∧ slotEnd > iv.1) := by
  induction l with
  | nil => simp
  | cons iv rest ih =>
    by_cases hc : cur < iv.2 ∧ slotEnd > iv.1
    · simp [findOverlap, hc] at h
    · simp [findOverlap, hc] at h
      intro jv hjv
      rcases List.mem_cons.mp hjv with heq | hmem
      · subst heq
        exact hc
      · exact ih h jv hmem

theorem mem_insertInterval {iv jv : Int × Int} {l : List (Int × Int)} :
    jv ∈ insertInterval iv l ↔ jv = iv ∨ jv ∈ l := by
  induction l with
  | nil => simp [insertInterval]
  | cons k rest ih =>
    by_cases hc : iv.1 < k.1 ∨ (iv.1 = k.1 ∧ iv.2 ≤ k.2)
    · simp [insertInterval, hc]
    · simp [insertInterval, hc, ih]
      tauto

theorem mem_sortIntervals {jv : Int × Int} {l : List (Int × Int)} :
    jv ∈ sortIntervals l ↔ jv ∈ l := by
  induction l with
  | nil => simp [sortIntervals]
  | cons k rest ih =>
    simp only [sortIntervals, List.foldr_cons] at *
    rw [mem_insertInterval, ih]
    simp

/-- Every slot produced by the sweep starts at or after the cursor, fits
before `dayEnd`, and overlaps no busy interval of the scanned list. -/
theorem sweep_mem {fuel : Nat} {intervals : List (Int × Int)}
    {current dayEnd dur : Int} {maxLeft : Nat} (hdur : 0 < dur) :
    ∀ s ∈ sweep fuel intervals current dayEnd dur maxLeft,
      current ≤ s ∧ s + dur ≤ dayEnd ∧ findOverlap intervals s (s + dur) = none := by
  induction fuel generalizing current maxLeft with
  | zero => simp [sweep]
  | succ fuel ih =>
    intro s hs
    by_cases hm : maxLeft = 0
    · simp [sweep, hm] at hs
    · by_cases hle : current + dur ≤ dayEnd
      · cases hov : findOverlap intervals current (current + dur) with
        | none =>
          simp only [sweep, if_neg hm, if_pos hle, hov] at hs
          rcases List.mem_cons.mp hs with heq | hs
          · subst heq
            exact ⟨le_refl _, hle, hov⟩
          · have h3 := ih s hs
            exact ⟨by omega, h3.2.1, h3.2.2⟩
        | some bEnd =>
          simp only [sweep, if_neg hm, if_pos hle, hov] at hs
          have hlt := findOverlap_some hov
          have h3 := ih s hs
          exact ⟨by omega, h3.2.1, h3.2.2⟩
      · simp [sweep, hm, hle] at hs

/-- The sweep's output is pairwise non-overlapping: each accepted start is at
least a full duration before any later one. -/
theorem sweep_pairwise {fuel : Nat} {intervals : List (Int × Int)}
    {current dayEnd dur : Int} {maxLeft : Nat} (hdur : 0 < dur) :
    (sweep fuel intervals current dayEnd dur maxLeft).Pairwise
      (fun a b => a + dur ≤ b) := by
  induction fuel generalizing current maxLeft with
  | zero => simp [sweep]
  | succ fuel ih =>
    by_cases hm : maxLeft = 0
    · simp [sweep, hm]
    · by_cases hle : current + dur ≤ dayEnd
      · cases hov : findOverlap intervals current (current + dur) with
        | none =>
          simp only [sweep, if_neg hm, if_pos hle, hov]
          refine List.Pairwise.cons ?_ ih
          intro b hb
          have := (sweep_mem hdur b hb).1
          omega
        | some bEnd =>
          simp only [sweep, if_neg hm, if_pos hle, hov]
          exact ih
      · simp [sweep, hm, hle]

/-- The sweep never produces more slots than the remaining budget. -/
theorem sweep_length {fuel : Nat} {intervals : List (Int × Int)}
    {current dayEnd dur : Int} {maxLeft : Nat} :
    (sweep fuel intervals current dayEnd dur maxLeft).length ≤ maxLeft := by
  induction fuel generalizing current maxLeft with
  | zero => simp [sweep]
  | succ fuel ih =>
    by_cases hm : maxLeft = 0
    · simp [sweep, hm]
    · by_cases hle : current + dur ≤ dayEnd
      · cases hov : findOverlap intervals current (current + dur) with
        | none =>
          simp only [sweep, if_neg hm, if_pos hle, hov, List.length_cons]
          have := @ih (current + dur) (maxLeft - 1)
          omega
        | some bEnd =>
          simp only [sweep, if_neg hm, if_pos hle, hov]
          exact ih
      · simp [sweep, hm, hle]

/-- When the cursor is already past the window the sweep is empty, whatever
the fuel. -/
theorem sweep_done {fuel : Nat} {intervals : List (Int × Int)}
    {current dayEnd dur : Int} {maxLeft : Nat} (h : ¬current + dur ≤ dayEnd) :
    sweep fuel intervals current dayEnd dur maxLeft = [] := by
  cases fuel with
  | zero => rfl
  | succ fuel =>
    by_cases hm : maxLeft = 0
    · simp [sweep, hm]
    · simp [sweep, hm, h]

/-- Fuel irrelevance: for a positive duration, any two fuels at least
`(dayEnd - current).toNat` produce the same sweep, so the fuel chosen in
`free_slots` is a pure termination device and the embedding agrees with the
Python while-loop. -/
theorem sweep_fuel_irrel {dur : Int} (hdur : 0 < dur) :
    ∀ (f g : Nat) (intervals : List (Int × Int)) (current dayEnd : Int)
      (maxLeft : Nat),
      (dayEnd - current).toNat ≤ f → (dayEnd - current).toNat ≤ g →
      sweep f intervals current dayEnd dur maxLeft =
        sweep g intervals current dayEnd dur maxLeft := by
  intro f
  induction f with
  | zero =>
    intro g intervals current dayEnd maxLeft hf hg
    have hdone : ¬current + dur ≤ dayEnd := by omega
    rw [sweep_done hdone, sweep_done hdone]
  | succ f ih =>
    intro g intervals current dayEnd maxLeft hf hg
    by_cases hle : current + dur ≤ dayEnd
    · cases g with
      | zero =>
        exfalso
        omega
      | succ g =>
        by_cases hm : maxLeft = 0
        · simp [sweep, hm]
        · cases hov : findOverlap intervals current (current + dur) with
          | none =>
            simp only [sweep, if_neg hm, if_pos hle, hov]
            have hrec := ih g intervals (current + dur) dayEnd (maxLeft - 1)
              (by omega) (by omega)
            rw [hrec]
          | some bEnd =>
            have hlt := findOverlap_some hov
            simp only [sweep, if_neg hm, if_pos hle, hov]
            have hrec := ih g intervals bEnd dayEnd maxLeft (by omega) (by omega)
            rw [hrec]
    · rw [sweep_done hle, sweep_done hle]

/-- C1: for every set of busy intervals, every window `[dayStart, dayEnd)`,
every positive slot duration and every maximum count, the list returned by
the availability planner (`suggest_free_slots`' sweep over the sorted busy
intervals) is sorted strictly increasing, pairwise non-overlapping (each
start is at least a full duration before the next), every returned start `s`
gives a slot `[s, s + dur)` lying fully inside the window and overlapping no
busy interval of the input (so every slot's length is the requested
duration), and the list has at most `maxS` elements. -/
theorem free_slots_correct (busy : List (Int × Int)) (dayStart dayEnd dur : Int)
    (maxS : Nat) (hdur : 0 < dur) :
    (free_slots busy dayStart dayEnd dur maxS).Pairwise (· < ·) ∧
    (free_slots busy dayStart dayEnd dur maxS).Pairwise (fun a b => a + dur ≤ b) ∧
    (∀ s ∈ free_slots busy dayStart dayEnd dur maxS,
      dayStart ≤ s ∧ s + dur ≤ dayEnd ∧
      ∀ iv ∈ busy, ¬(s < iv.2 ∧ s + dur > iv.1)) ∧
    (free_slots busy dayStart dayEnd dur maxS).length ≤ maxS := by
  have hpair : (free_slots busy dayStart dayEnd dur maxS).Pairwise
      (fun a b => a + dur ≤ b) := sweep_pairwise hdur
  refine ⟨?_, hpair, ?_, sweep_length⟩
  · exact hpair.imp (fun {a b} h => by omega)
  · intro s hs
    have h3 := sweep_mem hdur s hs
    refine ⟨h3.1, h3.2.1, ?_⟩
    intro iv hiv
    exact findOverlap_none h3.2.2 iv (mem_sortIntervals.mpr hiv)

/-- Witness for `free_slots_correct` at a concrete input: busy intervals
`[(120, 300), (60, 90)]`, window `[0, 600)`, duration `60`, at most `3`
suggestions. -/
theorem free_slots_correct_witness :
    (0 : Int) < 60 ∧
    ((free_slots [(120, 300), (60, 90)] 0 600 60 3).Pairwise (· < ·) ∧
    (free_slots [(120, 300), (60, 90)] 0 600 60 3).Pairwise
      (fun a b => a + 60 ≤ b) ∧
    (∀ s ∈ free_slots [(120, 300), (60, 90)] 0 600 60 3,
      0 ≤ s ∧ s + 60 ≤ 600 ∧
      ∀ iv ∈ [((120 : Int), (300 : Int)), (60, 90)],
        ¬(s < iv.2 ∧ s + 60 > iv.1)) ∧
    (free_slots [(120, 300), (60, 90)] 0 600 60 3).length ≤ 3) :=
  ⟨by decide, free_slots_correct [(120, 300), (60, 90)] 0 600 60 3 (by decide)⟩

/-! ### agent.fallback_extraction — the deterministic regex fallback

The three `re` patterns of agent.py lines 127-131 are embedded by a small
backtracking matcher: a `Matcher` yields all anchored parses in Python
backtracking-preference order (greedy quantifiers first, alternation
left-biased), and `reSearch` scans anchor positions left to right and takes
the first parse, which is exactly `re.search`'s leftmost-preferred match.
The previously consumed character is carried for word boundaries. -/

/-- Python regex word character over the ASCII inputs involved. -/
def isWordChar (c : Char) : Bool := c.isAlphanum || c == '_'

/-- Matcher state: remaining input and the previously consumed character. -/
abbrev MState := List Char × Option Char

/-- A backtracking matcher: all parses at the current anchor, in preference
order. -/
abbrev Matcher (α : Type) := MState → List (α × MState)

def mPure {α : Type} (a : α) : Matcher α := fun s => [(a, s)]

def mBind {α β : Type} (p : Matcher α) (f : α → Matcher β) : Matcher β :=
  fun s => ((p s).map (fun r => f r.1 r.2)).flatten

/-- Consume one character satisfying `pred`. -/
def mChar (pred : Char → Bool) : Matcher Char := fun s =>
  match s.1 with
  | [] => []
  | c :: rest => if pred c then [(c, (rest, some c))] else []

/-- Left-biased alternation (`a|b|...`). -/
def mAlt {α : Type} (ps : List (Matcher α)) : Matcher α :=
  fun s => (ps.map (fun p => p s)).flatten

/-- Greedy option (`(...)?`): with the group first, then without. -/
def mOpt {α : Type} (p : Matcher α) : Matcher (Option α) := fun s =>
  ((p s).map (fun r => (some r.1, r.2))) ++ [(none, s)]

/-- Word boundary `\b`: zero-width, holds when exactly one side is a word
character (no previous character or end of input count as non-word). -/
def mBoundary : Matcher Unit := fun s =>
  let pw := match s.2 with
    | some c => isWordChar c
    | none => false
  let nw := match s.1 with
    | c :: _ => isWordChar c
    | [] => false
  if pw ≠ nw then [((), s)] else []

/-- Consume the exact character sequence `t`. -/
def mExact : List Char → Matcher (List Char)
  | [] => fun s => [([], s)]
  | c :: cs => fun s =>
    match s.1 with
    | d :: rest =>
      if d == c then (mExact cs (rest, some d)).map (fun r => (c :: r.1, r.2))
      else []
    | [] => []

/-- All states reachable by consuming leading whitespace, most-consumed
first: greedy `\s*`. -/
def spaceStates : List Char → Option Char → List MState
  | [], prev => [([], prev)]
  | c :: rs, prev =>
    if c.isWhitespace then spaceStates rs (some c) ++ [(c :: rs, prev)]
    else [(c :: rs, prev)]

/-- Greedy `\s*`. -/
def mSpaces : Matcher Unit := fun s => (spaceStates s.1 s.2).map (fun st => ((), st))

def mDigit : Matcher Char := mChar Char.isDigit

/-- Greedy `\d{1,2}`: two digits preferred over one. -/
def mDigits12 : Matcher String :=
  mAlt [mBind mDigit (fun a => mBind mDigit (fun b => mPure (String.mk [a, b]))),
        mBind mDigit (fun a => mPure (String.mk [a]))]

/-- `\d{2}`. -/
def mDigits2 : Matcher String :=
  mBind mDigit (fun a => mBind mDigit (fun b => mPure (String.mk [a, b])))

/-- `(am|pm|AM|PM)`. -/
def mAmPm : Matcher String :=
  mBind (mAlt [mExact ['a', 'm'], mExact ['p', 'm'],
               mExact ['A', 'M'], mExact ['P', 'M']])
    (fun cs => mPure (String.mk cs))

/-- Pattern 1 of agent.py line 128: `\b(\d{1,2}):(\d{2})\s*(am|pm|AM|PM)?\b`;
groups (hour digits, minute digits, optional am/pm text). -/
def timePat1 : Matcher (String × String × Option String) :=
  mBind mBoundary fun _ =>
  mBind mDigits12 fun h =>
  mBind (mChar (fun c => c == ':')) fun _ =>
  mBind mDigits2 fun m =>
  mBind mSpaces fun _ =>
  mBind (mOpt mAmPm) fun ap =>
  mBind mBoundary fun _ =>
  mPure (h, m, ap)

/-- Pattern 2 of agent.py line 129: `\b(\d{1,2})\s*(am|pm|AM|PM)\b`; groups
(hour digits, am/pm text). -/
def timePat2 : Matcher (String × String) :=
  mBind mBoundary fun _ =>
  mBind mDigits12 fun h =>
  mBind mSpaces fun _ =>
  mBind mAmPm fun ap =>
  mBind mBoundary fun _ =>
  mPure (h, ap)

/-- Pattern 3 of agent.py line 130: `\b(\d{1,2}):(\d{2})\b`; groups (hour
digits, minute digits). -/
def timePat3 : Matcher (String × String) :=
  mBind mBoundary fun _ =>
  mBind mDigits12 fun h =>
  mBind (mChar (fun c => c == ':')) fun _ =>
  mBind mDigits2 fun m =>
  mBind mBoundary fun _ =>
  mPure (h, m)

/-- `re.search`: try the pattern anchored at each position from the left and
return the first (preferred) parse's captured groups. -/
def reSearch {α : Type} (p : Matcher α) (rest : List Char) (prev : Option Char) :
    Option α :=
  match (p (rest, prev)).head? with
  | some r => some r.1
  | none =>
    match rest with
    | [] => none
    | c :: rs => reSearch p rs (some c)

/-- Python `int(s)` on a captured group: succeeds on (non-empty) all-digit
text, raises `ValueError` otherwise (the exception text is abbreviated). -/
def pyIntNat (s : String) : Except String Nat :=
  let cs := s.toList
  if cs ≠ [] ∧ cs.all Char.isDigit then
    .ok (cs.foldl (fun acc c => acc * 10 + (c.toNat - 48)) 0)
  else .error ("invalid literal for int(): " ++ s)

/-- Python `f"{n:02d}"` for the non-negative values produced here. -/
def fmt2 (n : Nat) : String := if n < 10 then "0" ++ toString n else toString n

/-- `f"{hour:02d}:{minute:02d}"` (agent.py line 148). -/
def fmtClock (h m : Nat) : String := fmt2 h ++ ":" ++ fmt2 m

/-- `.upper()`. -/
def pyUpper (s : String) : String := String.mk (s.toList.map Char.toUpper)

/-- The time-extraction loop of `fallback_extraction` (agent.py lines
126-149): try the three patterns in order; on the first match, if the match
has at least three groups and a truthy third group apply the am/pm-to-24h
conversion, otherwise read group 1 as the hour and group 2 — whatever it
holds — as the minutes via `int()`.  For pattern 2 group 2 is the am/pm
text, so `int()` raises. -/
def extractTime (chars : List Char) : Except String (Option String) :=
  match reSearch timePat1 chars none with
  | some (h, m, ap) =>
    match ap with
    | some apStr => do
        let hour ← pyIntNat h
        let minute ← if m ≠ "" then pyIntNat m else pure 0
        let hour := if pyUpper apStr = "PM" ∧ hour ≠ 12 then hour + 12
          else if pyUpper apStr = "AM" ∧ hour = 12 then 0 else hour
        pure (some (fmtClock hour minute))
    | none => do
        let hour ← pyIntNat h
        let minute ← if m ≠ "" then pyIntNat m else pure 0
        pure (some (fmtClock hour minute))
  | none =>
    match reSearch timePat2 chars none with
    | some (h, ap) => do
        let hour ← pyIntNat h
        let minute ← if ap ≠ "" then pyIntNat ap else pure 0
        pure (some (fmtClock hour minute))
    | none =>
      match reSearch timePat3 chars none with
      | some (h, m) => do
          let hour ← pyIntNat h
          let minute ← if m ≠ "" then pyIntNat m else pure 0
          pure (some (fmtClock hour minute))
      | none => .ok none

/-- Does the lowercased message contain `needle` as a substring
(Python `needle in message_lower`)? -/
def listStartsWith : List Char → List Char → Bool
  | _, [] => true
  | [], _ :: _ => false
  | a :: ta, b :: tb => a == b && listStartsWith ta tb

def containsSub (needle : List Char) : List Char → Bool
  | [] => needle.isEmpty
  | c :: rest => listStartsWith (c :: rest) needle || containsSub needle rest

def bookWords : List String := ["book", "schedule", "reserve", "set up", "arrange"]

def checkWords : List String := ["free", "available", "busy", "slots", "check"]

def cancelWords : List String := ["cancel", "delete", "remove"]

def containsAny (lower : List Char) (ws : List String) : Bool :=
  ws.any (fun w => containsSub w.toList lower)

/-- The structured result of the fallback extractor; the date is a day
number relative to an arbitrary epoch. -/
structure FBResult where
  intent : String
  date : Option Int
  time : Option String
  summary : Option String
  deriving DecidableEq, Repr

instance {α β : Type} [DecidableEq α] [DecidableEq β] : DecidableEq (Except α β) :=
  fun a b =>
  match a, b with
  | .ok x, .ok y => if h : x = y then isTrue (by rw [h]) else isFalse (by simp [h])
  | .error x, .error y => if h : x = y then isTrue (by rw [h]) else isFalse (by simp [h])
  | .ok _, .error _ => isFalse (by simp)
  | .error _, .ok _ => isFalse (by simp)

/-- `fallback_extraction` (agent.py lines 113-158): keyword intent
classification on the lowercased message, then the regex time extraction
(which may raise, aborting the call), then `tomorrow`/`today` relative-date
extraction.  `datetime.now()` is abstracted as the explicit `today` day
number; a raised `ValueError` is `Except.error`. -/
def fallback_extraction (today : Int) (message : String) : Except String FBResult :=
  let lower := message.toList.map Char.toLower
  let intent := if containsAny lower bookWords then "book"
    else if containsAny lower checkWords then "check"
    else if containsAny lower cancelWords then "cancel"
    else "unknown"
  do
    let time ← extractTime message.toList
    let date := if containsSub "tomorrow".toList lower then some (today + 1)
      else if containsSub "today".toList lower then some today
      else none
    pure { intent := intent, date := date, time := time, summary := none }

/-- C2 (code bug): the deterministic regex fallback extractor raises
`ValueError` on `"Book a meeting tomorrow at 2pm"`, `"12am"` and `"12pm"`
rather than returning the specified intent/date/time: those messages match
only the bare `H am/pm` pattern (pattern 2), whose second group is the
am/pm text, and the non-am/pm branch feeds that group to `int()`.  The
intended am/pm-to-24-hour conversion (12pm to 12, 12am to 0, otherwise +12
for pm) is reachable only through the `H:MM am/pm` pattern, as the last
three conjuncts show. -/
theorem fallback_extraction_ampm_bug :
    fallback_extraction 0 "Book a meeting tomorrow at 2pm" =
      .error "invalid literal for int(): pm" ∧
    fallback_extraction 0 "12am" = .error "invalid literal for int(): am" ∧
    fallback_extraction 0 "12pm" = .error "invalid literal for int(): pm" ∧
    fallback_extraction 0 "Book a meeting tomorrow at 2:00pm" =
      .ok { intent := "book", date := some 1, time := some "14:00", summary := none } ∧
    fallback_extraction 0 "Meet me at 12:30am" =
      .ok { intent := "unknown", date := none, time := some "00:30", summary := none } ∧
    fallback_extraction 0 "Meet me at 12:30pm" =
      .ok { intent := "unknown", date := none, time := some "12:30", summary := none } := by
  refine ⟨rfl, rfl, rfl, ?_, ?_, ?_⟩ <;> decide

/-! ### datetime: timestamps, strptime, strftime

A `datetime` is modelled as minutes (Int) since an arbitrary fixed epoch of
the proleptic Gregorian calendar; `timedelta(hours=1)` is `+ 60` and
`strftime("%H:%M")` reads the clock off the minute count.  All datetimes in
agent.py carry `tzinfo=timezone.utc`, so a single time scale suffices. -/

/-- Proleptic Gregorian leap year (Python `calendar`/`datetime` rule). -/
def isLeapYear (y : Nat) : Bool := (y % 4 == 0 && y % 100 != 0) || y % 400 == 0

/-- Length of a month, as validated by `datetime.strptime`. -/
def daysInMonth (y m : Nat) : Nat :=
  if m = 2 then (if isLeapYear y then 29 else 28)
  else if m = 4 ∨ m = 6 ∨ m = 9 ∨ m = 11 then 30 else 31

/-- A parsed `datetime` (UTC). -/
structure PyDateTime where
  year : Nat
  month : Nat
  day : Nat
  hour : Nat
  minute : Nat
  deriving DecidableEq, Repr

/-- Day count of a proleptic Gregorian date from a fixed epoch (the standard
era/year-of-era/day-of-year computation, March-based).  Only differences of
day counts matter to the embedding, so the epoch offset is irrelevant. -/
def daysFromCivil (y m d : Nat) : Nat :=
  let y2 := if m ≤ 2 then y - 1 else y
  let era := y2 / 400
  let yoe := y2 - era * 400
  let mp := if 2 < m then m - 3 else m + 9
  let doy := (153 * mp + 2) / 5 + (d - 1)
  let doe := yoe * 365 + yoe / 4 - yoe / 100 + doy
  era * 146097 + doe

/-- The minute timestamp of a parsed datetime. -/
def dtMinutes (dt : PyDateTime) : Int :=
  (daysFromCivil dt.year dt.month dt.day : Int) * 1440 +
    (dt.hour : Int) * 60 + (dt.minute : Int)

/-- `strftime("%H:%M")` of a minute timestamp. -/
def strftimeHM (t : Int) : String := fmtClock ((t / 60) % 24).toNat (t % 60).toNat

/-- Up to `n` leading decimal digits (numeric `strptime` directives match
greedily up to their width). -/
def takeDigits : Nat → List Char → (List Char × List Char)
  | 0, cs => ([], cs)
  | _ + 1, [] => ([], [])
  | n + 1, c :: cs =>
    if c.isDigit then
      let r := takeDigits n cs
      (c :: r.1, r.2)
    else ([], c :: cs)

def natOfDigits (cs : List Char) : Nat :=
  cs.foldl (fun a c => a * 10 + (c.toNat - 48)) 0

/-- `datetime.strptime(s, "%Y-%m-%d %H:%M")` (with UTC attached): digits
separated by the literal format characters, full consumption required, and
the `datetime` range checks (year 1-9999, month 1-12, day within the month,
hour 0-23, minute 0-59). -/
def parseDateTime (s : String) : Option PyDateTime :=
  let cs := s.toList
  let p1 := takeDigits 4 cs
  if p1.1.isEmpty then none else
  match p1.2 with
  | '-' :: r2 =>
    let p2 := takeDigits 2 r2
    if p2.1.isEmpty then none else
    match p2.2 with
    | '-' :: r4 =>
      let p3 := takeDigits 2 r4
      if p3.1.isEmpty then none else
      match p3.2 with
      | ' ' :: r6 =>
        let p4 := takeDigits 2 r6
        if p4.1.isEmpty then none else
        match p4.2 with
        | ':' :: r8 =>
          let p5 := takeDigits 2 r8
          if p5.1.isEmpty ∨ ¬p5.2.isEmpty then none else
          let y := natOfDigits p1.1
          let mo := natOfDigits p2.1
          let d := natOfDigits p3.1
          let h := natOfDigits p4.1
          let mi := natOfDigits p5.1
          if 1 ≤ y ∧ y ≤ 9999 ∧ 1 ≤ mo ∧ mo ≤ 12 ∧
              1 ≤ d ∧ d ≤ daysInMonth y mo ∧ h ≤ 23 ∧ mi ≤ 59 then
            some ⟨y, mo, d, h, mi⟩
          else none
        | _ => none
      | _ => none
    | _ => none
  | _ => none

/-- `datetime.strptime(s, "%Y-%m-%d")` (date only, midnight). -/
def parseDate (s : String) : Option PyDateTime :=
  let cs := s.toList
  let p1 := takeDigits 4 cs
  if p1.1.isEmpty then none else
  match p1.2 with
  | '-' :: r2 =>
    let p2 := takeDigits 2 r2
    if p2.1.isEmpty then none else
    match p2.2 with
    | '-' :: r4 =>
      let p3 := takeDigits 2 r4
      if p3.1.isEmpty ∨ ¬p3.2.isEmpty then none else
      let y := natOfDigits p1.1
      let mo := natOfDigits p2.1
      let d := natOfDigits p3.1
      if 1 ≤ y ∧ y ≤ 9999 ∧ 1 ≤ mo ∧ mo ≤ 12 ∧
          1 ≤ d ∧ d ≤ daysInMonth y mo then
        some ⟨y, mo, d, 0, 0⟩
      else none
    | _ => none
  | _ => none

/-! ### agent.py — Slot State, oracles, and the three LangGraph nodes

Python truthiness drives several branches: `state.get(k)` is falsy for a
missing key, `None`, `""`, `[]` and `False`.  `Option` fields model
missing-or-`None`; the `truthy*` helpers give the Python truth value. -/

/-- One transcript message (`{"role": ..., "content": ...}`). -/
structure Msg where
  role : String
  content : String
  deriving DecidableEq, Repr

/-- The Slot State dict (agent.py `initial_state`). -/
structure AgentState where
  user_message : String
  intent : Option String
  date : Option String
  start_time : Option String
  end_time : Option String
  availability : Option Bool
  booking_confirmed : Bool
  response : String
  suggestions : List String
  calendar_id : String
  summary : String
  description : Option String
  attendees : Option (List String)
  needs_more_info : Bool
  history : List Msg
  deriving DecidableEq, Repr

def truthyStr : Option String → Bool
  | none => false
  | some s => !(s == "")

def truthyList : Option (List String) → Bool
  | none => false
  | some l => !l.isEmpty

def truthyOB : Option Bool → Bool
  | none => false
  | some b => b

def defaultCalendarId : String := "aryanrai97861@gmail.com"

/-- `initial_state` (agent.py lines 14-33). -/
def initial_state (msg : String) : AgentState :=
  { user_message := msg
    intent := none
    date := none
    start_time := none
    end_time := none
    availability := none
    booking_confirmed := false
    response := ""
    suggestions := []
    calendar_id := defaultCalendarId
    summary := "Meeting"
    description := none
    attendees := none
    needs_more_info := false
    history := [⟨"user", msg⟩] }

/-- The decoded JSON of a successful `gemini_conversational_reply` call
(agent.py lines 160-193); `none` models a missing key or a JSON `null`. -/
structure GeminiResult where
  reply : Option String
  intent : Option String
  date : Option String
  time : Option String
  summary : Option String
  email : Option String
  deriving DecidableEq, Repr

/-- A Google-Calendar event as consumed by agent.py: `startRepr` models
`event["start"].get("dateTime", event["start"].get("date"))`. -/
structure CalEvent where
  startRepr : String
  summary : Option String
  htmlLink : Option String
  deriving DecidableEq, Repr

/-- One observable call to the calendar backend. -/
inductive BackendCall where
  | freebusy (cal : String) (tmin tmax : Int)
  | insertEvent (cal : String) (tstart tend : Int) (summary : String)
      (description : Option String) (attendees : Option (List String))
  | listUpcoming (cal : String) (maxResults : Nat)
  deriving DecidableEq, Repr

abbrev Trace := List BackendCall

/-- The calendar backend oracle: `authenticate_google_calendar` plus the
three calendar_utils operations, each allowed to fail with an exception
text. -/
structure Backend where
  authenticate : Except String Unit
  freebusy : String → Int → Int → Except String (List (Int × Int))
  insertEvent : String → Int → Int → String → Option String →
    Option (List String) → Except String CalEvent
  listUpcoming : String → Nat → Except String (List CalEvent)

/-- An apostrophe, kept out of string literals. -/
def apos : String := String.mk [Char.ofNat 39]

def defaultReplyMsg : String := "Sorry, I didn" ++ apos ++ "t understand that."

def askEmailMsg : String := "What is your email address so I can send you the invite?"

/-- The slot copies of `conversational_node` (agent.py lines 199-209): the
reply and intent are always stored; date, start_time, summary and attendees
are overwritten only when the provider value is truthy; the reply is
appended to the history as an assistant turn. -/
def applyGemini (g : GeminiResult) (st : AgentState) : AgentState :=
  let resp := g.reply.getD defaultReplyMsg
  { st with
    response := resp
    intent := some (g.intent.getD "unknown")
    date := if truthyStr g.date then g.date else st.date
    start_time := if truthyStr g.time then g.time else st.start_time
    summary := match g.summary with
      | some s => if s == "" then st.summary else s
      | none => st.summary
    attendees := match g.email with
      | some e => if e == "" then st.attendees else some [e]
      | none => st.attendees
    history := st.history ++ [⟨"assistant", resp⟩] }

def listMeetingsIntents : List String :=
  ["show_meetings", "show_appointments", "list_meetings", "list_appointments"]

/-- `f"- {summary} at {start} [link]({link})"` with the dict defaults of
agent.py lines 220-223. -/
def formatEventLine (ev : CalEvent) : String :=
  "- " ++ ev.summary.getD "(No Title)" ++ " at " ++ ev.startRepr ++
    " [link](" ++ ev.htmlLink.getD "" ++ ")"

/-- The required-slot check for a book intent (agent.py lines 227-236):
missing date or time just flags `needs_more_info`; a missing attendee email
additionally overwrites the response with the email question. -/
def bookNeeds (s : AgentState) : AgentState :=
  if !truthyStr s.date then { s with needs_more_info := true }
  else if !truthyStr s.start_time then { s with needs_more_info := true }
  else if !truthyList s.attendees then
    { s with response := askEmailMsg, needs_more_info := true }
  else { s with needs_more_info := false }

/-- `conversational_node` (agent.py lines 195-244).  A failed provider call
or a failure in the unguarded meeting-listing backend calls propagates as an
exception (`Except.error`); every other branch returns a normal state. -/
def conversational_node (nlu : Except String GeminiResult) (bk : Backend)
    (st : AgentState) : Trace × Except String AgentState :=
  match nlu with
  | .error e => ([], .error e)
  | .ok g =>
    let s := applyGemini g st
    if s.intent ∈ listMeetingsIntents.map some then
      match bk.authenticate with
      | .error e => ([], .error e)
      | .ok _ =>
        match bk.listUpcoming s.calendar_id 5 with
        | .error e => ([.listUpcoming s.calendar_id 5], .error e)
        | .ok events =>
          let resp :=
            if events.isEmpty then "You have no upcoming meetings or appointments."
            else "Here are your next meetings:\n" ++
              String.intercalate "\n" (events.map formatEventLine)
          ([.listUpcoming s.calendar_id 5],
           .ok { s with response := resp, needs_more_info := false })
    else if s.intent = some "book" then ([], .ok (bookNeeds s))
    else if s.intent = some "check" then
      ([], .ok { s with needs_more_info := !truthyStr s.date })
    else ([], .ok { s with needs_more_info := true })

def availErrPrefix : String := "Error checking availability: "

/-- The interpolated exception text of the strptime `except` branches is
abstracted as this constant. -/
def valueErrorText : String := "ValueError"

def parseDTErrMsg : String := "Could not parse date/time: " ++ valueErrorText

def parseDateErrMsg : String := "Could not parse date: " ++ valueErrorText

def bookingParseErrMsg : String :=
  "Could not parse date/time for booking: " ++ valueErrorText

/-- The 09:00 window start used for whole-day suggestions (minutes). -/
def dayStartMin (dt : PyDateTime) : Int :=
  (daysFromCivil dt.year dt.month dt.day : Int) * 1440 + 540

/-- The 18:00 window end used for whole-day suggestions (minutes). -/
def dayEndMin (dt : PyDateTime) : Int :=
  (daysFromCivil dt.year dt.month dt.day : Int) * 1440 + 1080

/-- `check_availability_node` (agent.py lines 247-300).  For the `check`
intent the `authenticate`/`suggest_free_slots` calls are outside any `try`
and so may raise; the specific-slot (book) path wraps all backend work in
`try` and always returns a normal state. -/
def check_availability_node (bk : Backend) (st : AgentState) :
    Trace × Except String AgentState :=
  if st.needs_more_info then ([], .ok st)
  else if st.intent = some "check" then
    if !truthyStr st.date then
      ([], .ok { st with response := "Missing date for availability check." })
    else
      let dateStr := st.date.getD ""
      match parseDate dateStr with
      | none => ([], .ok { st with response := parseDateErrMsg })
      | some dt =>
        match bk.authenticate with
        | .error e => ([], .error e)
        | .ok _ =>
          match bk.freebusy st.calendar_id (dayStartMin dt) (dayEndMin dt) with
          | .error e =>
            ([.freebusy st.calendar_id (dayStartMin dt) (dayEndMin dt)], .error e)
          | .ok busy =>
            let sugg := free_slots busy (dayStartMin dt) (dayEndMin dt) 60 3
            let resp :=
              if !sugg.isEmpty then
                "Available slots on " ++ dateStr ++ ": " ++
                  String.intercalate ", " (sugg.map strftimeHM)
              else "No free slots found on " ++ dateStr ++ "."
            ([.freebusy st.calendar_id (dayStartMin dt) (dayEndMin dt)],
             .ok { st with response := resp })
  else
    if !truthyStr st.date || !truthyStr st.start_time then
      ([], .ok { st with response := "Missing date or time for availability check." })
    else
      let dateStr := st.date.getD ""
      let timeStr := st.start_time.getD ""
      match parseDateTime (dateStr ++ " " ++ timeStr) with
      | none => ([], .ok { st with response := parseDTErrMsg })
      | some dt =>
        let t0 := dtMinutes dt
        let st1 := { st with end_time := some (strftimeHM (t0 + 60)) }
        match bk.authenticate with
        | .error e => ([], .ok { st1 with response := availErrPrefix ++ e })
        | .ok _ =>
          match bk.freebusy st.calendar_id t0 (t0 + 60) with
          | .error e =>
            ([.freebusy st.calendar_id t0 (t0 + 60)],
             .ok { st1 with response := availErrPrefix ++ e })
          | .ok busy =>
            let isFree := busy.isEmpty
            let st2 := { st1 with availability := some isFree }
            if isFree then
              ([.freebusy st.calendar_id t0 (t0 + 60)],
               .ok { st2 with response := "Great! The slot on " ++ dateStr ++
                 " at " ++ timeStr ++ " is available. Shall I book it for you?" })
            else
              match bk.freebusy st.calendar_id (dayStartMin dt) (dayEndMin dt) with
              | .error e =>
                ([.freebusy st.calendar_id t0 (t0 + 60),
                  .freebusy st.calendar_id (dayStartMin dt) (dayEndMin dt)],
                 .ok { st2 with response := availErrPrefix ++ e })
              | .ok busy2 =>
                let sugg := free_slots busy2 (dayStartMin dt) (dayEndMin dt) 60 3
                if !sugg.isEmpty then
                  ([.freebusy st.calendar_id t0 (t0 + 60),
                    .freebusy st.calendar_id (dayStartMin dt) (dayEndMin dt)],
                   .ok { st2 with
                     response := "Sorry, " ++ timeStr ++ " on " ++ dateStr ++
                       " is not available. How about: " ++
                       String.intercalate ", " ((sugg.take 3).map strftimeHM) ++ "?"
                     suggestions := sugg.map strftimeHM })
                else
                  ([.freebusy st.calendar_id t0 (t0 + 60),
                    .freebusy st.calendar_id (dayStartMin dt) (dayEndMin dt)],
                   .ok { st2 with
                     response := "Sorry, " ++ timeStr ++ " on " ++ dateStr ++
                       " is not available, and no other slots are free that day."
                     suggestions := [] })

/-- `booking_node` (agent.py lines 303-337): every failure is caught and
turned into a response, so the node is total. -/
def booking_node (bk : Backend) (st : AgentState) : Trace × AgentState :=
  if !truthyOB st.availability then
    ([], { st with response := "Cannot book: slot is not available or not checked yet." })
  else if !(truthyStr st.date && truthyStr st.start_time) then
    ([], { st with response := "Cannot book: missing date or time information." })
  else
    let dateStr := st.date.getD ""
    let timeStr := st.start_time.getD ""
    match parseDateTime (dateStr ++ " " ++ timeStr) with
    | none => ([], { st with response := bookingParseErrMsg })
    | some dt =>
      let t0 := dtMinutes dt
      match bk.authenticate with
      | .error e => ([], { st with response := "Booking failed: " ++ e })
      | .ok _ =>
        match bk.insertEvent st.calendar_id t0 (t0 + 60) st.summary
            st.description st.attendees with
        | .error e =>
          ([.insertEvent st.calendar_id t0 (t0 + 60) st.summary
              st.description st.attendees],
           { st with response := "Booking failed: " ++ e })
        | .ok ev =>
          ([.insertEvent st.calendar_id t0 (t0 + 60) st.summary
              st.description st.attendees],
           { st with
             booking_confirmed := true
             response := "Perfect! Your " ++ apos ++ st.summary ++ apos ++
               " is booked for " ++ dateStr ++ " at " ++ timeStr ++
               ". Event link: " ++ ev.htmlLink.getD "N/A" })

/-- The conditional edge after `conversational` (agent.py lines 352-356). -/
def routing1 (s : AgentState) : Bool :=
  (s.intent == some "book" || s.intent == some "check") && !s.needs_more_info

/-- The conditional edge after `check_availability` (agent.py lines 358-362). -/
def routing2 (s : AgentState) : Bool :=
  truthyOB s.availability && s.intent == some "book"

/-- One `invoke` of the compiled graph (`build_agent_graph`, agent.py lines
340-366): Interpret, then conditionally Availability Check, then
conditionally Booking; exceptions abort the run with the backend calls made
so far. -/
def runGraph (nlu : Except String GeminiResult) (bk : Backend)
    (st : AgentState) : Trace × Except String AgentState :=
  match conversational_node nlu bk st with
  | (t1, .error e) => (t1, .error e)
  | (t1, .ok s1) =>
    if routing1 s1 then
      match check_availability_node bk s1 with
      | (t2, .error e) => (t1 ++ t2, .error e)
      | (t2, .ok s2) =>
        if routing2 s2 then
          let r := booking_node bk s2
          (t1 ++ t2 ++ r.1, .ok r.2)
        else (t1 ++ t2, .ok s2)
    else (t1, .ok s1)

/-- The state after the Availability Check step, when the run reaches it. -/
def midState (nlu : Except String GeminiResult) (bk : Backend)
    (st : AgentState) : Option AgentState :=
  match conversational_node nlu bk st with
  | (_, .error _) => none
  | (_, .ok s1) =>
    if routing1 s1 then
      match check_availability_node bk s1 with
      | (_, .error _) => none
      | (_, .ok s2) => some s2
    else none

/-- The continuing-turn mutation of `run_agent` (agent.py lines 373-376):
set `user_message`, append the user message to the history, reset
`needs_more_info`. -/
def continueState (msg : String) (p : AgentState) : AgentState :=
  { p with
    user_message := msg
    history := p.history ++ [⟨"user", msg⟩]
    needs_more_info := false }

/-- The state handed to the graph by `run_agent` (agent.py lines 371-376). -/
def preState (msg : String) (prev : Option AgentState) : AgentState :=
  match prev with
  | none => initial_state msg
  | some p => continueState msg p

/-- `run_agent` (agent.py lines 369-385): invoke the graph; any exception is
caught and turned into the prior state with an apology response. -/
def run_agent (nlu : Except String GeminiResult) (bk : Backend) (msg : String)
    (prev : Option AgentState) : Trace × AgentState :=
  let st := preState msg prev
  match runGraph nlu bk st with
  | (tr, .ok r) => (tr, r)
  | (tr, .error e) => (tr, { st with response := "Sorry, I encountered an error: " ++ e })

/-! ### main.py — session store and endpoints -/

/-- The in-memory `sessions` dict, as an association list. -/
abbrev Sessions := List (String × AgentState)

def sessionsLookup : Sessions → String → Option AgentState
  | [], _ => none
  | (k, v) :: rest, sid => if k == sid then some v else sessionsLookup rest sid

def sessionsInsert : Sessions → String → AgentState → Sessions
  | [], sid, v => [(sid, v)]
  | (k, w) :: rest, sid, v =>
    if k == sid then (sid, v) :: rest else (k, w) :: sessionsInsert rest sid v

def sessionsErase (ss : Sessions) (sid : String) : Sessions :=
  ss.filter (fun kv => !(kv.1 == sid))

/-- `ChatRequest` (main.py lines 26-29). -/
structure ChatRequest where
  message : String
  session_id : String
  calendar_id : String
  deriving DecidableEq, Repr

/-- A `POST /chat` body that omits `session_id` and `calendar_id`: pydantic
fills in the field defaults `"default"` and the fixed calendar id. -/
def ChatRequest.ofMessage (msg : String) : ChatRequest :=
  ⟨msg, "default", defaultCalendarId⟩

/-- `chat_endpoint` (main.py lines 55-94): look up or create the session
state, run the agent, store the result under the request's session id. -/
def chat_endpoint (nlu : Except String GeminiResult) (bk : Backend)
    (ss : Sessions) (req : ChatRequest) : Sessions × AgentState :=
  let st := match sessionsLookup ss req.session_id with
    | some s => s
    | none => { initial_state req.message with calendar_id := req.calendar_id }
  let r := run_agent nlu bk req.message (some st)
  (sessionsInsert ss req.session_id r.2, r.2)

/-- `GET /session/{id}` (main.py lines 129-138): 404 on an unknown id. -/
def get_session (ss : Sessions) (sid : String) : Except Nat (String × AgentState) :=
  match sessionsLookup ss sid with
  | none => .error 404
  | some st => .ok (sid, st)

/-- `DELETE /session/{id}` (main.py lines 140-148): 404 on an unknown id,
otherwise remove the entry; returns the response and the updated store. -/
def delete_session (ss : Sessions) (sid : String) : Except Nat String × Sessions :=
  match sessionsLookup ss sid with
  | none => (.error 404, ss)
  | some _ => (.ok ("Session " ++ sid ++ " deleted successfully"), sessionsErase ss sid)

/-! ### Concrete oracles used by witnesses and counterexamples -/

/-- A backend whose every operation fails. -/
def bkDown : Backend :=
  { authenticate := .error "auth down"
    freebusy := fun _ _ _ => .error "down"
    insertEvent := fun _ _ _ _ _ _ => .error "down"
    listUpcoming := fun _ _ => .error "down" }

/-- A backend that is always reachable and always free. -/
def bkFree : Backend :=
  { authenticate := .ok ()
    freebusy := fun _ _ _ => .ok []
    insertEvent := fun _ _ _ _ _ _ =>
      .ok { startRepr := "2024-07-01T14:00:00Z", summary := some "Meeting",
            htmlLink := some "http://cal/event1" }
    listUpcoming := fun _ _ => .ok [] }

/-- A backend that authenticates and answers free/busy queries but whose
event insertion fails. -/
def bkInsertFail : Backend :=
  { authenticate := .ok ()
    freebusy := fun _ _ _ => .ok []
    insertEvent := fun _ _ _ _ _ _ => .error "calendar down"
    listUpcoming := fun _ _ => .ok [] }

/-- C3 counterexample: with the NLU provider failing (`Except.error "boom"`)
on the message `"check tomorrow"`, the turn's result is the apology response
`"Sorry, I encountered an error: boom"` — the failure is surfaced to the end
user as an error — and the state's intent is untouched (`none`), whereas the
regex fallback extractor on that message yields intent `check` and
tomorrow's date: the Interpret step's result does not equal the fallback's
result. -/
theorem provider_failure_not_fallback :
    (run_agent (.error "boom") bkDown "check tomorrow" none).2.response =
      "Sorry, I encountered an error: boom" ∧
    (run_agent (.error "boom") bkDown "check tomorrow" none).2.intent = none ∧
    fallback_extraction 0 "check tomorrow" =
      .ok { intent := "check", date := some 1, time := none, summary := none } ∧
    (run_agent (.error "boom") bkDown "check tomorrow" none).2.intent ≠
      some "check" := by
  refine ⟨rfl, rfl, by decide, by decide⟩

/-- C3 amended: when the NLU provider call fails, the exception propagates
out of the Interpret step and is caught only at the pipeline boundary
(`run_agent`), which returns the pre-invoke state with the apology response
`"Sorry, I encountered an error: <e>"` appended to nothing else — no
backend call happens and the regex fallback extractor is not consulted, so
the failure is not propagated raw but is surfaced to the user as an error
message. -/
theorem provider_failure_caught_at_boundary (e : String) (bk : Backend)
    (msg : String) (prev : Option AgentState) :
    run_agent (.error e) bk msg prev =
      ([], { preState msg prev with
              response := "Sorry, I encountered an error: " ++ e }) := rfl

/-- C4: the Interpret step overwrites date, start_time, summary and
attendees only from truthy provider values; in particular a provider result
with null/absent date, time and summary leaves the previously known values
unchanged. -/
theorem interpret_preserves_known_slots (bk : Backend) (g : GeminiResult)
    (st : AgentState) (tr : Trace) (s2 : AgentState)
    (h : conversational_node (.ok g) bk st = (tr, .ok s2)) :
    s2.date = (if truthyStr g.date then g.date else st.date) ∧
    s2.start_time = (if truthyStr g.time then g.time else st.start_time) ∧
    s2.summary = (match g.summary with
      | some s => if s == "" then st.summary else s
      | none => st.summary) ∧
    s2.attendees = (match g.email with
      | some e => if e == "" then st.attendees else some [e]
      | none => st.attendees) ∧
    (g.date = none → s2.date = st.date) ∧
    (g.time = none → s2.start_time = st.start_time) ∧
    (g.summary = none → s2.summary = st.summary) := by
  have hfields : s2.date = (applyGemini g st).date ∧
      s2.start_time = (applyGemini g st).start_time ∧
      s2.summary = (applyGemini g st).summary ∧
      s2.attendees = (applyGemini g st).attendees := by
    unfold conversational_node at h
    simp only at h
    split at h
    · split at h
      · exact absurd h (by simp)
      · split at h
        · exact absurd h (by simp)
        · rw [Prod.mk.injEq, Except.ok.injEq] at h
          rw [← h.2]
          exact ⟨rfl, rfl, rfl, rfl⟩
    · split at h
      · unfold bookNeeds at h
        split at h <;> [skip; split at h] <;>
          [skip; skip; split at h] <;>
          · rw [Prod.mk.injEq, Except.ok.injEq] at h
            rw [← h.2]
            exact ⟨rfl, rfl, rfl, rfl⟩
      · split at h <;>
          · rw [Prod.mk.injEq, Except.ok.injEq] at h
            rw [← h.2]
            exact ⟨rfl, rfl, rfl, rfl⟩
  have hd : (applyGemini g st).date = (if truthyStr g.date then g.date else st.date) := rfl
  have ht : (applyGemini g st).start_time =
      (if truthyStr g.time then g.time else st.start_time) := rfl
  have hs : (applyGemini g st).summary = (match g.summary with
      | some s => if s == "" then st.summary else s
      | none => st.summary) := rfl
  have ha : (applyGemini g st).attendees = (match g.email with
      | some e => if e == "" then st.attendees else some [e]
      | none => st.attendees) := rfl
  refine ⟨hfields.1.trans hd, hfields.2.1.trans ht, hfields.2.2.1.trans hs,
    hfields.2.2.2.trans ha, ?_, ?_, ?_⟩
  · intro hnone
    rw [hfields.1, hd, hnone]
    rfl
  · intro hnone
    rw [hfields.2.1, ht, hnone]
    rfl
  · intro hnone
    rw [hfields.2.2.1, hs, hnone]

/-- A provider result that supplies only a reply and an intent, with date,
time, summary and email all null/absent. -/
def gW : GeminiResult :=
  { reply := some "ok"
    intent := some "unknown"
    date := none
    time := none
    summary := none
    email := none }

/-- An already-filled Slot State. -/
def stW : AgentState :=
  { initial_state "hi" with
    date := some "2024-07-01"
    start_time := some "14:00"
    summary := "Sync" }

/-- What the Interpret step makes of `stW` under `gW`. -/
def sW : AgentState :=
  { stW with
    response := "ok"
    intent := some "unknown"
    needs_more_info := true
    history := stW.history ++ [⟨"assistant", "ok"⟩] }

/-- Witness for `interpret_preserves_known_slots`: a concrete all-null
provider result on an already-complete Slot State leaves date, start_time
and summary untouched. -/
theorem interpret_preserves_known_slots_witness :
    conversational_node (.ok gW) bkDown stW = ([], .ok sW) ∧
    (sW.date = (if truthyStr gW.date then gW.date else stW.date) ∧
    sW.start_time = (if truthyStr gW.time then gW.time else stW.start_time) ∧
    sW.summary = (match gW.summary with
      | some s => if s == "" then stW.summary else s
      | none => stW.summary) ∧
    sW.attendees = (match gW.email with
      | some e => if e == "" then stW.attendees else some [e]
      | none => stW.attendees) ∧
    (gW.date = none → sW.date = stW.date) ∧
    (gW.time = none → sW.start_time = stW.start_time) ∧
    (gW.summary = none → sW.summary = stW.summary)) :=
  ⟨by decide, interpret_preserves_known_slots bkDown gW stW [] sW (by decide)⟩

def BackendCall.isInsert : BackendCall → Bool
  | .insertEvent .. => true
  | _ => false

/-- The Interpret step performs no insert call (it only lists events). -/
theorem conv_trace_no_insert (nlu : Except String GeminiResult) (bk : Backend)
    (st : AgentState) :
    ∀ c ∈ (conversational_node nlu bk st).1, c.isInsert = false := by
  intro c hc
  rcases nlu with e | g
  · simp [conversational_node] at hc
  · simp only [conversational_node] at hc
    repeat' split at hc
    all_goals simp_all [BackendCall.isInsert]

/-- The Availability Check step performs no insert call (only free/busy
queries). -/
theorem avail_trace_no_insert (bk : Backend) (st : AgentState) :
    ∀ c ∈ (check_availability_node bk st).1, c.isInsert = false := by
  intro c hc
  simp only [check_availability_node] at hc
  repeat' split at hc
  all_goals simp_all [BackendCall.isInsert]
  all_goals rcases hc with rfl | rfl <;> rfl

/-- C5: in every run of the pipeline, if a backend insert call occurs in the
turn's trace then the run reached the Booking step through a
post-availability state whose availability is (truthily) true and whose
intent is "book"; contrapositively, for every state failing that condition
no insert call occurs during the turn. -/
theorem insert_only_when_available_and_book (nlu : Except String GeminiResult)
    (bk : Backend) (st : AgentState)
    (h : ∃ c ∈ (runGraph nlu bk st).1, c.isInsert = true) :
    ∃ s2, midState nlu bk st = some s2 ∧
      truthyOB s2.availability = true ∧ s2.intent = some "book" := by
  unfold runGraph at h
  unfold midState
  cases hc : conversational_node nlu bk st with
  | mk t1 r1 =>
    rw [hc] at h
    cases r1 with
    | error e =>
      dsimp only at h
      obtain ⟨c, hmem, hins⟩ := h
      have hni := conv_trace_no_insert nlu bk st c (by rw [hc]; exact hmem)
      rw [hni] at hins
      exact absurd hins (by simp)
    | ok s1 =>
      dsimp only at h ⊢
      by_cases hr1 : routing1 s1 = true
      · rw [if_pos hr1] at h ⊢
        cases ha : check_availability_node bk s1 with
        | mk t2 r2 =>
          rw [ha] at h
          cases r2 with
          | error e =>
            dsimp only at h
            obtain ⟨c, hmem, hins⟩ := h
            rcases List.mem_append.mp hmem with hm | hm
            · have hni := conv_trace_no_insert nlu bk st c (by rw [hc]; exact hm)
              rw [hni] at hins
              exact absurd hins (by simp)
            · have hni := avail_trace_no_insert bk s1 c (by rw [ha]; exact hm)
              rw [hni] at hins
              exact absurd hins (by simp)
          | ok s2 =>
            dsimp only at h ⊢
            by_cases hr2 : routing2 s2 = true
            · refine ⟨s2, rfl, ?_, ?_⟩
              · unfold routing2 at hr2
                rw [Bool.and_eq_true] at hr2
                exact hr2.1
              · unfold routing2 at hr2
                rw [Bool.and_eq_true] at hr2
                exact beq_iff_eq.mp hr2.2
            · rw [if_neg hr2] at h
              obtain ⟨c, hmem, hins⟩ := h
              rcases List.mem_append.mp hmem with hm | hm
              · have hni := conv_trace_no_insert nlu bk st c (by rw [hc]; exact hm)
                rw [hni] at hins
                exact absurd hins (by simp)
              · have hni := avail_trace_no_insert bk s1 c (by rw [ha]; exact hm)
                rw [hni] at hins
                exact absurd hins (by simp)
      · rw [if_neg hr1] at h
        obtain ⟨c, hmem, hins⟩ := h
        have hni := conv_trace_no_insert nlu bk st c (by rw [hc]; exact hmem)
        rw [hni] at hins
        exact absurd hins (by simp)

/-- A provider result that books a complete slot. -/
def gBook : GeminiResult :=
  { reply := some "ok"
    intent := some "book"
    date := some "2024-07-01"
    time := some "14:00"
    summary := none
    email := some "a@b.com" }

/-- Witness for `insert_only_when_available_and_book`: a complete book
request against a free calendar leads to an insert call, and indeed the
post-availability state has availability true and intent book. -/
theorem insert_only_when_available_and_book_witness :
    (∃ c ∈ (runGraph (.ok gBook) bkFree (initial_state "book it")).1,
      c.isInsert = true) ∧
    ∃ s2, midState (.ok gBook) bkFree (initial_state "book it") = some s2 ∧
      truthyOB s2.availability = true ∧ s2.intent = some "book" :=
  ⟨by decide, insert_only_when_available_and_book _ _ _ (by decide)⟩

/-- A Slot State left over from a successful earlier turn: booking already
confirmed, availability still true. -/
def stBooked : AgentState :=
  { initial_state "book another" with
    intent := some "book"
    date := some "2024-07-01"
    start_time := some "14:00"
    availability := some true
    booking_confirmed := true
    attendees := some ["a@b.com"] }

/-- C6 counterexample: a Slot State with `booking_confirmed = true` (left
over from a previous successful turn; `run_agent` never resets the flag)
enters the Booking step and the backend insert fails; the step reports the
booking failure but `booking_confirmed` is still `true`, not `false`: a
failed insert leaves the flag unchanged rather than making it false. -/
theorem booking_failure_confirmed_cex :
    (booking_node bkInsertFail stBooked).2.response =
      "Booking failed: calendar down" ∧
    (booking_node bkInsertFail stBooked).2.booking_confirmed = true :=
  ⟨by decide, by decide⟩

/-- C6 amended: for every Slot State entering the Booking step (truthy
availability, truthy parseable date/time, reachable backend), a failed
insert returns the state with only the response changed to the
booking-failure message — `booking_confirmed` is left unchanged (so it
remains false whenever it was false on entry) and no other field is
touched, the insert being atomic from this system's point of view — while
`booking_confirmed` is set true only by a successful insert, whose response
carries the event's external link. -/
theorem booking_failure_leaves_state (bk : Backend) (st : AgentState)
    (dt : PyDateTime) (e : String)
    (hav : truthyOB st.availability = true)
    (hd : truthyStr st.date = true) (ht : truthyStr st.start_time = true)
    (hp : parseDateTime ((st.date.getD "") ++ " " ++ (st.start_time.getD "")) = some dt)
    (hauth : bk.authenticate = .ok ()) :
    (bk.insertEvent st.calendar_id (dtMinutes dt) (dtMinutes dt + 60) st.summary
        st.description st.attendees = .error e →
      booking_node bk st =
        ([.insertEvent st.calendar_id (dtMinutes dt) (dtMinutes dt + 60) st.summary
            st.description st.attendees],
         { st with response := "Booking failed: " ++ e })) ∧
    (∀ ev, bk.insertEvent st.calendar_id (dtMinutes dt) (dtMinutes dt + 60) st.summary
        st.description st.attendees = .ok ev →
      booking_node bk st =
        ([.insertEvent st.calendar_id (dtMinutes dt) (dtMinutes dt + 60) st.summary
            st.description st.attendees],
         { st with
           booking_confirmed := true
           response := "Perfect! Your " ++ apos ++ st.summary ++ apos ++
             " is booked for " ++ st.date.getD "" ++ " at " ++ st.start_time.getD "" ++
             ". Event link: " ++ ev.htmlLink.getD "N/A" })) := by
  constructor
  · intro hins
    simp [booking_node, hav, hd, ht, hp, hauth, hins]
  · intro ev hins
    simp [booking_node, hav, hd, ht, hp, hauth, hins]

/-- A fresh Slot State about to book (booking not yet confirmed). -/
def stPend : AgentState :=
  { initial_state "book it" with
    intent := some "book"
    date := some "2024-07-01"
    start_time := some "14:00"
    availability := some true
    attendees := some ["a@b.com"] }

/-- Witness for `booking_failure_leaves_state`: with the insert failing, the
concrete pending state comes back with only the failure response changed
(`booking_confirmed` still false). -/
theorem booking_failure_leaves_state_witness :
    booking_node bkInsertFail stPend =
      ([.insertEvent stPend.calendar_id (dtMinutes ⟨2024, 7, 1, 14, 0⟩)
          (dtMinutes ⟨2024, 7, 1, 14, 0⟩ + 60) stPend.summary stPend.description
          stPend.attendees],
       { stPend with response := "Booking failed: calendar down" }) :=
  (booking_failure_leaves_state bkInsertFail stPend ⟨2024, 7, 1, 14, 0⟩
    "calendar down" (by decide) (by decide) (by decide) (by decide) rfl).1 rfl

/-- Shifting a timestamp by whole days does not change its clock. -/
theorem strftimeHM_day_irrel (d x : Int) :
    strftimeHM (d * 1440 + x) = strftimeHM x := by
  unfold strftimeHM fmtClock
  have h1 : (d * 1440 + x) / 60 % 24 = x / 60 % 24 := by omega
  have h2 : (d * 1440 + x) % 60 = x % 60 := by omega
  rw [h1, h2]

/-- C7: for every Slot State with intent "book", no pending question, a
truthy parseable date and start_time, and a reachable backend, the
Availability Check step returns normally, sets `end_time` to the clock time
exactly 60 minutes after `start_time`, and its first backend query is the
free/busy check on exactly the interval
`[date+start_time, date+start_time+60)` (UTC minutes). -/
theorem availability_end_time_and_interval (bk : Backend) (st : AgentState)
    (dt : PyDateTime)
    (hn : st.needs_more_info = false)
    (hi : st.intent = some "book")
    (hd : truthyStr st.date = true) (ht : truthyStr st.start_time = true)
    (hp : parseDateTime ((st.date.getD "") ++ " " ++ (st.start_time.getD "")) = some dt)
    (hauth : bk.authenticate = .ok ()) :
    ∃ tr s2, check_availability_node bk st = (tr, .ok s2) ∧
      s2.end_time = some (strftimeHM ((dt.hour : Int) * 60 + (dt.minute : Int) + 60)) ∧
      tr.head? = some (.freebusy st.calendar_id (dtMinutes dt) (dtMinutes dt + 60)) := by
  have hclock : strftimeHM (dtMinutes dt + 60) =
      strftimeHM ((dt.hour : Int) * 60 + (dt.minute : Int) + 60) := by
    have harg : dtMinutes dt + 60 =
        (daysFromCivil dt.year dt.month dt.day : Int) * 1440 +
          ((dt.hour : Int) * 60 + (dt.minute : Int) + 60) := by
      unfold dtMinutes
      ring
    rw [harg, strftimeHM_day_irrel]
  simp only [check_availability_node, hn, hi, hd, ht, hp, hauth]
  rcases hfb : bk.freebusy st.calendar_id (dtMinutes dt) (dtMinutes dt + 60)
    with e | busy
  · simp [hfb, hclock]
    exact ⟨_, _, ⟨rfl, rfl⟩, rfl, rfl⟩
  · by_cases hbe : busy = []
    · simp [hfb, hbe, hclock]
      exact ⟨_, _, ⟨rfl, rfl⟩, rfl, rfl⟩
    · rcases hfb2 : bk.freebusy st.calendar_id (dayStartMin dt) (dayEndMin dt)
        with e2 | busy2
      · simp [hfb, hbe, hfb2, hclock]
        exact ⟨_, _, ⟨rfl, rfl⟩, rfl, rfl⟩
      · by_cases hsg : free_slots busy2 (dayStartMin dt) (dayEndMin dt) 60 3 = []
        · simp [hfb, hbe, hfb2, hsg, hclock]
          exact ⟨_, _, ⟨rfl, rfl⟩, rfl, rfl⟩
        · simp [hfb, hbe, hfb2, hsg, hclock]
          exact ⟨_, _, ⟨rfl, rfl⟩, rfl, rfl⟩

/-- The parsed datetime of `"2024-07-01 14:00"`. -/
def pdW : PyDateTime := ⟨2024, 7, 1, 14, 0⟩

/-- Witness for `availability_end_time_and_interval` at the concrete pending
state against the free backend. -/
theorem availability_end_time_and_interval_witness :
    ∃ tr s2, check_availability_node bkFree stPend = (tr, .ok s2) ∧
      s2.end_time = some (strftimeHM ((pdW.hour : Int) * 60 + (pdW.minute : Int) + 60)) ∧
      tr.head? = some (.freebusy stPend.calendar_id (dtMinutes pdW) (dtMinutes pdW + 60)) :=
  availability_end_time_and_interval bkFree stPend pdW (by decide) (by decide)
    (by decide) (by decide) (by decide) rfl

/-- C8: for every session identifier not present in the Session Store,
`GET /session/{id}` and `DELETE /session/{id}` both surface the distinct
not-found condition (HTTP 404) and leave the store unchanged — neither
silently creates a session for the unknown identifier. -/
theorem session_not_found_404 (ss : Sessions) (sid : String)
    (h : sessionsLookup ss sid = none) :
    get_session ss sid = .error 404 ∧ delete_session ss sid = (.error 404, ss) := by
  unfold get_session delete_session
  rw [h]
  exact ⟨rfl, rfl⟩

/-- Witness for `session_not_found_404` on the empty store. -/
theorem session_not_found_404_witness :
    sessionsLookup [] "missing" = none ∧
    (get_session [] "missing" = .error 404 ∧
     delete_session [] "missing" = (.error 404, [])) :=
  ⟨rfl, session_not_found_404 [] "missing" rfl⟩

/-- A Slot State left by a prior turn: availability true, but an
unparseable date. -/
def stStale : AgentState :=
  { initial_state "earlier turn" with
    intent := some "book"
    date := some "2024-13-01"
    start_time := some "14:00"
    availability := some true
    attendees := some ["a@b.com"] }

/-- A provider result that re-resolves to a bare book intent, supplying no
slot values. -/
def gYes : GeminiResult :=
  { reply := some "Booking now."
    intent := some "book"
    date := none
    time := none
    summary := none
    email := none }

/-- C9: on a continuing turn `run_agent` mutates only `user_message`,
`history` (appending the user message) and `needs_more_info` (reset to
false) before invoking the pipeline — availability, booking_confirmed,
suggestions, date and start_time (and every other field) carry over
unchanged; consequently a stale `availability = true` persists into the new
turn, and a concrete "book"-intent turn reaches the Booking step (its
distinctive parse-failure response is produced) with an empty backend trace
— no fresh availability check happened in that turn. -/
theorem run_agent_frame_and_stale_availability :
    (∀ (msg : String) (p : AgentState),
      (continueState msg p).availability = p.availability ∧
      (continueState msg p).booking_confirmed = p.booking_confirmed ∧
      (continueState msg p).suggestions = p.suggestions ∧
      (continueState msg p).date = p.date ∧
      (continueState msg p).start_time = p.start_time ∧
      (continueState msg p).intent = p.intent ∧
      (continueState msg p).end_time = p.end_time ∧
      (continueState msg p).summary = p.summary ∧
      (continueState msg p).description = p.description ∧
      (continueState msg p).attendees = p.attendees ∧
      (continueState msg p).calendar_id = p.calendar_id ∧
      (continueState msg p).response = p.response ∧
      (continueState msg p).user_message = msg ∧
      (continueState msg p).history = p.history ++ [⟨"user", msg⟩] ∧
      (continueState msg p).needs_more_info = false) ∧
    ((run_agent (.ok gYes) bkDown "yes book it" (some stStale)).1 = [] ∧
     (run_agent (.ok gYes) bkDown "yes book it" (some stStale)).2.response =
       bookingParseErrMsg ∧
     (run_agent (.ok gYes) bkDown "yes book it" (some stStale)).2.availability =
       some true) :=
  ⟨fun _ _ =>
    ⟨rfl, rfl, rfl, rfl, rfl, rfl, rfl, rfl, rfl, rfl, rfl, rfl, rfl, rfl, rfl⟩,
   by decide, by decide, by decide⟩

/-- C10: a `POST /chat` request that omits `session_id` is processed under
the fixed key "default" (the pydantic field default): two such requests
from unrelated clients read and write the same Session Store entry and
therefore share one Slot State — after client A's `"hi"`, client B's `"yo"`
turn starts from A's stored state, so B's resulting history is
`["hi", "hi", "yo"]` (the duplicate "hi" comes from `chat_endpoint` seeding
a brand-new state with the message and `run_agent` appending it again). -/
theorem default_session_shared :
    (∀ msg : String, (ChatRequest.ofMessage msg).session_id = "default") ∧
    (sessionsLookup
        (chat_endpoint (.error "provider down") bkDown []
          (ChatRequest.ofMessage "hi")).1 "default" =
      some (chat_endpoint (.error "provider down") bkDown []
          (ChatRequest.ofMessage "hi")).2) ∧
    ((chat_endpoint (.error "provider down") bkDown
        (chat_endpoint (.error "provider down") bkDown []
          (ChatRequest.ofMessage "hi")).1
        (ChatRequest.ofMessage "yo")).2.history.map Msg.content =
      ["hi", "hi", "yo"]) :=
  ⟨fun _ => rfl, by decide, by decide⟩
